import Mathlib

/-!
# teamup-calendar: a shallow embedding of `calendar.go` and `events.go`

The adapter is sequential glue around library calls (`net/http`, `encoding/json`,
`io/ioutil`, `fmt`).  The library calls are the fields of `Env`; everything the
repository itself decides (which call is made with which argument, which branch
is taken on its result, which value and which error are returned) is a plain
Lean function of that environment.

Go strings and byte slices are `String` (texts, compared character by character,
which for well-formed UTF-8 is the byte comparison of Go); Go `int` is `Int` (the
only arithmetic in the source is `StatusCode/100`, which cannot overflow).  A Go `(value, error)`
return is a `Ret`, holding both components and the library calls made so far.
-/

set_option autoImplicit false

namespace Teamup

/-! ## Go values -/

/-- Go `error` values as the source can observe them: the text given by `Error()` and
the optional cause given by `Unwrap()`.  `leaf` has no cause, `wrap` has one. -/
inductive GoError where
  | leaf (msg : String)
  | wrap (msg : String) (cause : GoError)
  deriving DecidableEq, Repr

/-- The method `err.Error()`. -/
def GoError.Error : GoError → String
  | .leaf msg => msg
  | .wrap msg _ => msg

/-- The method `errors.Unwrap(err)`. -/
def GoError.Unwrap : GoError → Option GoError
  | .leaf _ => none
  | .wrap _ cause => some cause

/-- The call `fmt.Errorf(pre + "%w", err)`: the message is `pre` followed by the text of
`err`, and `err` can be unwrapped from the result. -/
def Errorf_w (pre : String) (err : GoError) : GoError :=
  .wrap (pre ++ err.Error) err

/-- The call `fmt.Errorf(pre + "%s", x)`: only the text of `x` survives. -/
def Errorf_s (pre : String) (text : String) : GoError :=
  .leaf (pre ++ text)

/-- Decimal rendering of a Go `int`, as done by `strconv.Itoa` and by the verb `%v`. -/
def Itoa (i : Int) : String := toString i

/-- A Go slice: `nil`, or a present backing array (possibly of length zero). -/
inductive Slice (α : Type) where
  | nil
  | mk (elems : List α)
  deriving DecidableEq, Repr

/-- The elements a `range` loop visits. -/
def Slice.toList {α : Type} : Slice α → List α
  | .nil => []
  | .mk elems => elems

/-- The builtin `len`. -/
def Slice.len {α : Type} (s : Slice α) : Nat := s.toList.length

/-- The test `s == nil`. -/
def Slice.isNil {α : Type} : Slice α → Bool
  | .nil => true
  | .mk _ => false

/-- The builtin `append(s, x)`: the result always has a backing array. -/
def Slice.append {α : Type} (s : Slice α) (x : α) : Slice α :=
  .mk (s.toList ++ [x])

/-- Go `map[string][]string`, the type behind both `http.Header` and `url.Values`. -/
abbrev Values := List (String × List String)

/-- The method `Set`: the key is bound to the single value. -/
def Values.Set (v : Values) (key value : String) : Values :=
  (key, [value]) :: v.filter (fun p => p.1 != key)

/-- The method `Add`: the value is appended to those already bound to the key. -/
def Values.Add (v : Values) (key value : String) : Values :=
  match v.lookup key with
  | some vs => (key, vs ++ [value]) :: v.filter (fun p => p.1 != key)
  | none => (key, [value]) :: v

/-! ## Data model (`calendar.go`, `events.go`) -/

/-- The struct `Calendar` of `calendar.go`. -/
structure Calendar where
  APIKey : String
  Password : String
  CalendarID : String
  RoomID : String
  deriving DecidableEq, Repr

/-- The struct `calendars.Event` of the scheduler platform.  Its declaration is not part
of this repository; `τ` is the type of its two time fields.  `GetEvents` fills them from
decoded `time.Time` values, `CreateEvent` copies them into `string` fields. -/
structure Event (τ : Type) where
  Title : String
  StartTime : τ
  EndTime : τ
  deriving DecidableEq, Repr

/-- The struct `event` of `events.go`; `τ` stands for `time.Time`. -/
structure event (τ : Type) where
  ID : String
  RemoteID : String
  SeriesID : String
  SubCalendarIDArray : Slice Int
  SubCalendarID : Int
  StartDate : τ
  EndDate : τ
  AllDay : Bool
  Title : String
  Who : String
  Location : String
  Notes : String
  RecurRule : String
  RecurInstStart : String
  RecurSeriesStart : String
  TimeZone : String
  Version : String
  ReadOnly : Bool
  CreationDate : τ
  UpdateDate : τ

/-- The struct `eventResponse` of `events.go`. -/
structure eventResponse (τ : Type) where
  Events : Slice (event τ)
  TimeStamp : Int

/-- The struct `eventSend` of `events.go`.  A Go struct literal leaves the fields it does
not name at their zero value, which is the default given here. -/
structure eventSend where
  SubCalendarID : Int := 0
  StartDate : String := ""
  EndDate : String := ""
  AllDay : Bool := false
  RecurRule : String := ""
  Title : String := ""
  Who : String := ""
  Location : String := ""
  Notes : String := ""
  deriving DecidableEq, Repr

/-- The struct `subcalendar` of `events.go`. -/
structure subcalendar where
  ID : Int
  Name : String
  Active : Bool
  Color : Int
  Overlap : Bool
  ReadOnly : Bool
  CreationDate : String
  UpdateDate : String
  deriving DecidableEq, Repr

/-- The struct `subcalendarList` of `events.go`. -/
structure subcalendarList where
  Subcalendars : Slice subcalendar
  deriving DecidableEq, Repr

/-! ## The library boundary -/

/-- What the source sets on an `*http.Request`.  `RawQuery` is `none` until the source
assigns `req.URL.RawQuery`. -/
structure Request where
  Method : String
  URL : String
  RawQuery : Option String
  Header : Values
  Body : Option String
  deriving DecidableEq, Repr

/-- What the source reads from an `*http.Response`: the status code, and what
`ioutil.ReadAll(resp.Body)` yields if it is called. -/
structure Response where
  StatusCode : Int
  Body : Except GoError String

/-- The library calls the source makes.  `κ` is `context.Context`, `τ` is `time.Time`. -/
structure Env (κ τ : Type) where
  /-- The error result of `http.NewRequestWithContext(ctx, method, url, body)`. -/
  NewRequestWithContext : κ → String → String → Option String → Option GoError
  /-- The values of `req.URL.Query()` for a request built from the given URL. -/
  Query : String → Values
  /-- The method `url.Values.Encode`. -/
  Encode : Values → String
  /-- The call `http.DefaultClient.Do(req)`, the request carrying `ctx`. -/
  Do : κ → Request → Except GoError Response
  /-- The call `json.Unmarshal(body, &subcalResponse)`. -/
  UnmarshalSubcalendars : String → Except GoError subcalendarList
  /-- The call `json.Unmarshal(body, &eventResponse)`. -/
  UnmarshalEvents : String → Except GoError (eventResponse τ)
  /-- The call `json.Marshal(teamUpEvent)`. -/
  Marshal : eventSend → Except GoError String
  /-- The rendering of a string by the verb `%q`. -/
  Quote : String → String

/-- One library call, as recorded in the order the source makes it. -/
inductive Call where
  | NewRequest (method url : String) (body : Option String)
  | Do (req : Request)
  | ReadAll
  | Unmarshal (data : String)
  | Marshal (v : eventSend)
  deriving DecidableEq, Repr

/-- A Go `(value, error)` result together with the library calls made to reach it. -/
structure Ret (α : Type) where
  calls : List Call
  val : α
  err : Option GoError

/-! ## `calendar.go` -/

/-- The URL built at line 127. -/
def subcalendarsURL (c : Calendar) : String :=
  "https://api.teamup.com/" ++ c.CalendarID ++ "/subcalendars"

/-- The URL built at lines 31 and 94. -/
def eventsURL (c : Calendar) : String :=
  "https://api.teamup.com/" ++ c.CalendarID ++ "/events"

/-- The request `GetSubcalendarID` hands to the client (lines 128 to 136). -/
def subcalendarsRequest (c : Calendar) : Request :=
  let req : Request := ⟨"GET", subcalendarsURL c, none, [], none⟩
  let req := { req with Header := req.Header.Set "Teamup-Token" c.APIKey }
  if c.Password.utf8ByteSize > 0 then
    { req with Header := req.Header.Set "Teamup-Password" c.Password }
  else req

/-- The request `GetEvents` hands to the client (lines 32 to 45). -/
def eventsRequest {κ τ : Type} (env : Env κ τ) (c : Calendar) (subCalID : Int) : Request :=
  let req : Request := ⟨"GET", eventsURL c, none, [], none⟩
  let req := { req with Header := req.Header.Set "Content-Type" "application/json" }
  let req := { req with Header := req.Header.Set "Teamup-Token" c.APIKey }
  let req :=
    if c.Password.utf8ByteSize > 0 then
      { req with Header := req.Header.Set "Teamup-Password" c.Password }
    else req
  let query := (env.Query (eventsURL c)).Add "subcalendarId[]" (Itoa subCalID)
  { req with RawQuery := some (env.Encode query) }

/-- The request `CreateEvent` hands to the client (lines 95 to 104). -/
def postRequest (c : Calendar) (reqBody : String) : Request :=
  let req : Request := ⟨"POST", eventsURL c, none, [], some reqBody⟩
  let req := { req with Header := req.Header.Set "Content-Type" "application/json" }
  let req := { req with Header := req.Header.Set "Teamup-Token" c.APIKey }
  if c.Password.utf8ByteSize > 0 then
    { req with Header := req.Header.Set "Teamup-Password" c.Password }
  else req

/-- The loop of lines 158 to 162: the id of the first record named `roomID`. -/
def scanSubcalendars (roomID : String) : List subcalendar → Option Int
  | [] => none
  | subCal :: rest =>
    if subCal.Name = roomID then some subCal.ID else scanSubcalendars roomID rest

/-- The method `Calendar.GetSubcalendarID` (lines 126 to 165). -/
def GetSubcalendarID {κ τ : Type} (env : Env κ τ) (ctx : κ) (c : Calendar) : Ret Int :=
  let url := subcalendarsURL c
  let t1 := [Call.NewRequest "GET" url none]
  match env.NewRequestWithContext ctx "GET" url none with
  | some err => ⟨t1, 0, some err⟩
  | none =>
    let req := subcalendarsRequest c
    let t2 := t1 ++ [Call.Do req]
    match env.Do ctx req with
    | .error err => ⟨t2, 0, some err⟩
    | .ok resp =>
      let t3 := t2 ++ [Call.ReadAll]
      match resp.Body with
      | .error err => ⟨t3, 0, some err⟩
      | .ok body =>
        if resp.StatusCode.tdiv 100 ≠ 2 then
          ⟨t3, 0, some (Errorf_s ("invalid response, status code " ++ Itoa resp.StatusCode ++ ": ") body)⟩
        else
          let t4 := t3 ++ [Call.Unmarshal body]
          match env.UnmarshalSubcalendars body with
          | .error err => ⟨t4, 0, some (Errorf_w "error unmarshalling json: " err)⟩
          | .ok subcalResponse =>
            match scanSubcalendars c.RoomID subcalResponse.Subcalendars.toList with
            | some id => ⟨t4, id, none⟩
            | none =>
              ⟨t4, 0, some (Errorf_s "no calendar found with roomID " (env.Quote c.RoomID))⟩

/-- The method `Calendar.GetEvents` (lines 25 to 73). -/
def GetEvents {κ τ : Type} (env : Env κ τ) (ctx : κ) (c : Calendar) : Ret (Slice (Event τ)) :=
  let r := GetSubcalendarID env ctx c
  match r.err with
  | some err => ⟨r.calls, .nil, some (Errorf_s "unable to get subcalendar id: " err.Error)⟩
  | none =>
    let subCalID := r.val
    let url := eventsURL c
    let t1 := r.calls ++ [Call.NewRequest "GET" url none]
    match env.NewRequestWithContext ctx "GET" url none with
    | some err => ⟨t1, .nil, some (Errorf_w "error creating get request: " err)⟩
    | none =>
      let req := eventsRequest env c subCalID
      let t2 := t1 ++ [Call.Do req]
      match env.Do ctx req with
      | .error err => ⟨t2, .nil, some (Errorf_w "error sending get request: " err)⟩
      | .ok resp =>
        let t3 := t2 ++ [Call.ReadAll]
        match resp.Body with
        | .error err => ⟨t3, .nil, some (Errorf_w "error reading response body: " err)⟩
        | .ok body =>
          let t4 := t3 ++ [Call.Unmarshal body]
          match env.UnmarshalEvents body with
          | .error err =>
            ⟨t4, .nil, some (Errorf_w "error unmarshalling json event data: " err)⟩
          | .ok eventResponse =>
            let events := eventResponse.Events.toList.foldl
              (fun events event =>
                events.append
                  { Title := event.Title, StartTime := event.StartDate, EndTime := event.EndDate })
              Slice.nil
            ⟨t4, events, none⟩

/-- The struct literal of lines 82 to 87.  Lines 85 and 86 put `event.StartTime` and
`event.EndTime` into `string` fields as they are, so the event is taken at `τ = string`. -/
def teamUpEvent (subCalID : Int) (event : Event String) : eventSend :=
  { SubCalendarID := subCalID
    Title := event.Title
    StartDate := event.StartTime
    EndDate := event.EndTime }

/-- The method `Calendar.CreateEvent` (lines 75 to 123). -/
def CreateEvent {κ τ : Type} (env : Env κ τ) (ctx : κ) (c : Calendar) (event : Event String) :
    Ret Unit :=
  let r := GetSubcalendarID env ctx c
  match r.err with
  | some err => ⟨r.calls, (), some (Errorf_s "unable to get subcalendar id: " err.Error)⟩
  | none =>
    let subCalID := r.val
    let teamUpEvent := teamUpEvent subCalID event
    let t1 := r.calls ++ [Call.Marshal teamUpEvent]
    match env.Marshal teamUpEvent with
    | .error err => ⟨t1, (), some (Errorf_w "error marshalling event data into json: " err)⟩
    | .ok reqBody =>
      let url := eventsURL c
      let t2 := t1 ++ [Call.NewRequest "POST" url (some reqBody)]
      match env.NewRequestWithContext ctx "POST" url (some reqBody) with
      | some err => ⟨t2, (), some (Errorf_s "Error creating post request | " err.Error)⟩
      | none =>
        let req := postRequest c reqBody
        let t3 := t2 ++ [Call.Do req]
        match env.Do ctx req with
        | .error err => ⟨t3, (), some err⟩
        | .ok resp =>
          if resp.StatusCode.tdiv 100 ≠ 2 then
            let t4 := t3 ++ [Call.ReadAll]
            match resp.Body with
            | .error err => ⟨t4, (), some err⟩
            | .ok body =>
              ⟨t4, (), some (Errorf_s ("invalid response code " ++ Itoa resp.StatusCode ++ ": ") body)⟩
          else ⟨t3, (), none⟩

/-! ## A scripted service, for concrete runs -/

/-- The adapter identity of the concrete runs: no password, room `RoomB`. -/
def roomB : Calendar := ⟨"token", "", "ks1234", "RoomB"⟩

/-- A sub-calendar record with the given id and name. -/
def subcal (id : Int) (name : String) : subcalendar :=
  ⟨id, name, true, 0, true, false, "", ""⟩

/-- An event record with the given title and times. -/
def record (title start stop : String) : event String :=
  ⟨"1", "", "", .nil, 0, start, stop, false, title, "", "", "", "", "", "", "UTC", "0", false,
    "", ""⟩

/-- A test double of the library boundary for the calendar `roomB`: request construction
succeeds unless `bad` says otherwise, the three endpoints give the scripted replies, and
the decoders and the encoder are the given tables. -/
def scripted (bad : String → Option GoError) (listing events post : Except GoError Response)
    (subcals : String → Except GoError subcalendarList)
    (evs : String → Except GoError (eventResponse String))
    (enc : eventSend → Except GoError String) : Env Unit String where
  NewRequestWithContext := fun _ method _ _ => bad method
  Query := fun _ => []
  Encode := fun v => String.join (v.map fun p => p.1 ++ "=" ++ String.join p.2)
  Do := fun _ req =>
    if req.Method = "POST" then post
    else if req.URL = "https://api.teamup.com/ks1234/subcalendars" then listing
    else events
  UnmarshalSubcalendars := subcals
  UnmarshalEvents := evs
  Marshal := enc
  Quote := fun s => "\"" ++ s ++ "\""

/-- The listing body of the concrete runs. -/
def listingBody : String :=
  "\x7b\"subcalendars\":[\x7b\"id\":7,\"name\":\"RoomA\"\x7d,\x7b\"id\":9,\"name\":\"RoomB\"\x7d]\x7d"

/-- Decoder table: `listingBody` holds `RoomA` (id 7) and `RoomB` (id 9). -/
def decodeListing (body : String) : Except GoError subcalendarList :=
  if body = listingBody then .ok ⟨.mk [subcal 7 "RoomA", subcal 9 "RoomB"]⟩
  else .error (.leaf "invalid character in literal false")

/-- The events body of the concrete runs: one record. -/
def standupBody : String :=
  "\x7b\"events\":[\x7b\"title\":\"Standup\",\"start_dt\":\"2024-01-01T09:00:00Z\",\"end_dt\":\"2024-01-01T09:15:00Z\"\x7d],\"timestamp\":1\x7d"

/-- An events body with no record. -/
def noEventsBody : String := "\x7b\"events\":[],\"timestamp\":1\x7d"

/-- Decoder table for the two events bodies; any other body is rejected. -/
def decodeEvents (body : String) : Except GoError (eventResponse String) :=
  if body = standupBody then
    .ok ⟨.mk [record "Standup" "2024-01-01T09:00:00Z" "2024-01-01T09:15:00Z"], 1⟩
  else if body = noEventsBody then .ok ⟨.mk [], 1⟩
  else .error (.leaf "invalid character in literal false")

/-- Encoder double: the draft is accepted and rendered by its title. -/
def encodeDraft (d : eventSend) : Except GoError String :=
  .ok ("\x7b\"subcalendar_id\":" ++ Itoa d.SubCalendarID ++ ",\"title\":\"" ++ d.Title ++ "\"\x7d")

/-- The service answering the listing with `listingBody` and the given status, the events
GET and the events POST with the given replies. -/
def service (listingStatus : Int) (events post : Except GoError Response) : Env Unit String :=
  scripted (fun _ => none) (.ok ⟨listingStatus, .ok listingBody⟩) events post
    decodeListing decodeEvents encodeDraft

/-! ## Shared lemmas -/

section Lemmas

variable {κ τ : Type}

/-- Go integer division truncates toward zero, so `s/100 == 2` holds exactly for the
codes 200 to 299, negative codes included. -/
theorem tdiv_hundred_eq_two (s : Int) : s.tdiv 100 = 2 ↔ (200 ≤ s ∧ s ≤ 299) := by
  cases s with
  | ofNat m =>
    have h : (Int.ofNat m).tdiv 100 = ((m / 100 : Nat) : Int) := rfl
    rw [h]
    constructor
    · intro h2
      have h3 : m / 100 = 2 := by exact_mod_cast h2
      have : (Int.ofNat m) = (m : Int) := rfl
      omega
    · rintro ⟨h1, h2⟩
      have : (Int.ofNat m) = (m : Int) := rfl
      have h3 : m / 100 = 2 := by omega
      exact_mod_cast h3
  | negSucc m =>
    have h : (Int.negSucc m).tdiv 100 = -(((m + 1) / 100 : Nat) : Int) := rfl
    rw [h]
    constructor
    · intro h2
      omega
    · rintro ⟨h1, _⟩
      have := Int.negSucc_lt_zero m
      omega

/-- The loop stops at the first record carrying the room name. -/
theorem scanSubcalendars_first (roomID : String) (pre : List subcalendar) (subCal : subcalendar)
    (post : List subcalendar) (hpre : ∀ x ∈ pre, x.Name ≠ roomID) (hname : subCal.Name = roomID) :
    scanSubcalendars roomID (pre ++ subCal :: post) = some subCal.ID := by
  induction pre with
  | nil => simp [scanSubcalendars, hname]
  | cons x xs ih =>
    have hx : x.Name ≠ roomID := hpre x (List.mem_cons_self _ _)
    have hxs : ∀ y ∈ xs, y.Name ≠ roomID := fun y hy => hpre y (List.mem_cons_of_mem _ hy)
    simp [scanSubcalendars, hx, ih hxs]

/-- The loop falls through when no record carries the room name. -/
theorem scanSubcalendars_none (roomID : String) (l : List subcalendar)
    (hall : ∀ x ∈ l, x.Name ≠ roomID) : scanSubcalendars roomID l = none := by
  induction l with
  | nil => rfl
  | cons x xs ih =>
    have hx : x.Name ≠ roomID := hall x (List.mem_cons_self _ _)
    have hxs : ∀ y ∈ xs, y.Name ≠ roomID := fun y hy => hall y (List.mem_cons_of_mem _ hy)
    simp [scanSubcalendars, hx, ih hxs]

/-- The loop of `GetEvents` appends one projected record per decoded record. -/
theorem foldl_append_toList {α β : Type} (f : α → β) (l : List α) (acc : Slice β) :
    (l.foldl (fun events event => events.append (f event)) acc).toList
      = acc.toList ++ l.map f := by
  induction l generalizing acc with
  | nil => simp
  | cons x xs ih =>
    rw [List.foldl_cons, ih]
    simp [Slice.append, Slice.toList]

/-- `GetSubcalendarID` on a listing reply with a 2xx status and a body that decodes. -/
theorem GetSubcalendarID_decoded (env : Env κ τ) (ctx : κ) (c : Calendar) (resp : Response)
    (body : String) (L : subcalendarList)
    (hreq : env.NewRequestWithContext ctx "GET" (subcalendarsURL c) none = none)
    (hdo : env.Do ctx (subcalendarsRequest c) = .ok resp)
    (hbody : resp.Body = .ok body)
    (h2xx : 200 ≤ resp.StatusCode ∧ resp.StatusCode ≤ 299)
    (hdec : env.UnmarshalSubcalendars body = .ok L) :
    (GetSubcalendarID env ctx c).val
        = (scanSubcalendars c.RoomID L.Subcalendars.toList).getD 0 ∧
      (GetSubcalendarID env ctx c).err
        = match scanSubcalendars c.RoomID L.Subcalendars.toList with
          | some _ => none
          | none => some (Errorf_s "no calendar found with roomID " (env.Quote c.RoomID)) := by
  have hs : resp.StatusCode.tdiv 100 = 2 := (tdiv_hundred_eq_two _).2 h2xx
  simp only [GetSubcalendarID, hreq, hdo, hbody, hs, hdec]
  cases scanSubcalendars c.RoomID L.Subcalendars.toList <;> simp

/-- `GetEvents` once resolution succeeded and the events reply was read: the status code
of the reply is never consulted, the outcome is decided by the decoder alone. -/
theorem GetEvents_read (env : Env κ τ) (ctx : κ) (c : Calendar) (resp : Response)
    (body : String)
    (hsub : (GetSubcalendarID env ctx c).err = none)
    (hreq : env.NewRequestWithContext ctx "GET" (eventsURL c) none = none)
    (hdo : env.Do ctx (eventsRequest env c (GetSubcalendarID env ctx c).val) = .ok resp)
    (hbody : resp.Body = .ok body) :
    (GetEvents env ctx c).val
        = (match env.UnmarshalEvents body with
          | .error _ => Slice.nil
          | .ok eventResponse =>
            eventResponse.Events.toList.foldl
              (fun events event =>
                events.append
                  { Title := event.Title, StartTime := event.StartDate, EndTime := event.EndDate })
              Slice.nil) ∧
      (GetEvents env ctx c).err
        = (match env.UnmarshalEvents body with
          | .error err => some (Errorf_w "error unmarshalling json event data: " err)
          | .ok _ => none) := by
  simp only [GetEvents, hsub, hreq, hdo, hbody]
  cases env.UnmarshalEvents body <;> simp

/-- The two endpoints have different URLs. -/
theorem subcalendarsURL_ne_eventsURL (c : Calendar) : subcalendarsURL c ≠ eventsURL c := by
  intro h
  have hd := congrArg String.data h
  simp [subcalendarsURL, eventsURL, String.data_append] at hd

/-- The request of `GetSubcalendarID` is a GET of the listing URL. -/
theorem subcalendarsRequest_target (c : Calendar) :
    (subcalendarsRequest c).Method = "GET" ∧ (subcalendarsRequest c).URL = subcalendarsURL c := by
  unfold subcalendarsRequest
  split <;> exact ⟨rfl, rfl⟩

/-- The library calls of `GetSubcalendarID`: one request construction and at most one
exchange, both for the listing URL, at most one read and one decoding. -/
theorem GetSubcalendarID_calls (env : Env κ τ) (ctx : κ) (c : Calendar) (call : Call)
    (hcall : call ∈ (GetSubcalendarID env ctx c).calls) :
    call = .NewRequest "GET" (subcalendarsURL c) none ∨ call = .Do (subcalendarsRequest c) ∨
      call = .ReadAll ∨ ∃ body, call = .Unmarshal body := by
  unfold GetSubcalendarID at hcall
  simp only at hcall
  split at hcall
  · simp at hcall; simp [hcall]
  · split at hcall
    · simp at hcall; rcases hcall with h | h <;> simp [h]
    · split at hcall
      · simp at hcall; rcases hcall with h | h | h <;> simp [h]
      · split at hcall
        · simp at hcall; rcases hcall with h | h | h <;> simp [h]
        · split at hcall
          · simp at hcall; rcases hcall with h | h | h | h <;> simp [h]
          · split at hcall <;>
              (simp at hcall; rcases hcall with h | h | h | h <;> simp [h])

/-- The library calls of `CreateEvent`: those of the resolution, then the encoding of the
draft, then the construction and the exchange of the POST, then at most one read. -/
theorem CreateEvent_calls (env : Env κ τ) (ctx : κ) (c : Calendar) (event : Event String)
    (call : Call) (hcall : call ∈ (CreateEvent env ctx c event).calls) :
    call ∈ (GetSubcalendarID env ctx c).calls ∨
      call = .Marshal (teamUpEvent (GetSubcalendarID env ctx c).val event) ∨
      (∃ reqBody, call = .NewRequest "POST" (eventsURL c) (some reqBody)) ∨
      (∃ reqBody, call = .Do (postRequest c reqBody)) ∨ call = .ReadAll := by
  unfold CreateEvent at hcall
  simp only at hcall
  split at hcall
  · exact Or.inl hcall
  · split at hcall
    · simp at hcall; rcases hcall with h | h <;> simp [h]
    · split at hcall
      · simp at hcall; rcases hcall with h | h | h <;> simp [h]
      · split at hcall
        · simp at hcall; rcases hcall with h | h | h | h <;> simp [h]
        · split at hcall
          · split at hcall <;>
              (simp at hcall; rcases hcall with h | h | h | h | h <;> simp [h])
          · simp at hcall; rcases hcall with h | h | h | h <;> simp [h]

end Lemmas

/-! ## Claims -/

section Claims

variable {κ τ : Type}

/-- C1: on a 2xx listing reply whose body decodes to the list `L`, `GetSubcalendarID`
returns the id of the first record of `L` (in the order of `L`) whose name equals the room
identifier, with no error; and when no record has that name (also when `L` has no record)
it returns the not-found error naming the room identifier. -/
theorem GetSubcalendarID_first_match (env : Env κ τ) (ctx : κ) (c : Calendar) (resp : Response)
    (body : String) (L : subcalendarList)
    (hreq : env.NewRequestWithContext ctx "GET" (subcalendarsURL c) none = none)
    (hdo : env.Do ctx (subcalendarsRequest c) = .ok resp)
    (hbody : resp.Body = .ok body)
    (h2xx : 200 ≤ resp.StatusCode ∧ resp.StatusCode ≤ 299)
    (hdec : env.UnmarshalSubcalendars body = .ok L) :
    (∀ pre subCal post, L.Subcalendars.toList = pre ++ subCal :: post →
        (∀ x ∈ pre, x.Name ≠ c.RoomID) → subCal.Name = c.RoomID →
        (GetSubcalendarID env ctx c).val = subCal.ID ∧ (GetSubcalendarID env ctx c).err = none) ∧
      ((∀ x ∈ L.Subcalendars.toList, x.Name ≠ c.RoomID) →
        (GetSubcalendarID env ctx c).val = 0 ∧
        (GetSubcalendarID env ctx c).err
          = some (GoError.leaf ("no calendar found with roomID " ++ env.Quote c.RoomID))) := by
  obtain ⟨hv, he⟩ := GetSubcalendarID_decoded env ctx c resp body L hreq hdo hbody h2xx hdec
  constructor
  · intro pre subCal post hL hpre hname
    have hscan := scanSubcalendars_first c.RoomID pre subCal post hpre hname
    rw [← hL] at hscan
    rw [hv, he, hscan]
    simp
  · intro hall
    have hscan := scanSubcalendars_none c.RoomID _ hall
    rw [hv, he, hscan]
    simp [Errorf_s]

/-- C1, concrete run: the list `RoomA` (id 7), `RoomB` (id 9) with room `RoomB` gives 9. -/
theorem GetSubcalendarID_first_match_witness :
    (GetSubcalendarID (service 200 (.ok ⟨200, .ok standupBody⟩) (.ok ⟨201, .ok ""⟩)) () roomB).val = 9 ∧
      (GetSubcalendarID (service 200 (.ok ⟨200, .ok standupBody⟩) (.ok ⟨201, .ok ""⟩)) () roomB).err
        = none :=
  (GetSubcalendarID_first_match (service 200 (.ok ⟨200, .ok standupBody⟩) (.ok ⟨201, .ok ""⟩)) ()
    roomB ⟨200, .ok listingBody⟩ listingBody ⟨.mk [subcal 7 "RoomA", subcal 9 "RoomB"]⟩
    rfl rfl rfl (by decide) rfl).1 [subcal 7 "RoomA"] (subcal 9 "RoomB") [] rfl (by decide) rfl

/-- C2: when resolution succeeded and the events reply decodes to a response with `N`
records, `GetEvents` returns no error and exactly `N` events in the same order, the i-th
carrying the title, `start_dt` and `end_dt` of the i-th record unchanged. -/
theorem GetEvents_projects_records (env : Env κ τ) (ctx : κ) (c : Calendar) (resp : Response)
    (body : String) (R : eventResponse τ)
    (hsub : (GetSubcalendarID env ctx c).err = none)
    (hreq : env.NewRequestWithContext ctx "GET" (eventsURL c) none = none)
    (hdo : env.Do ctx (eventsRequest env c (GetSubcalendarID env ctx c).val) = .ok resp)
    (hbody : resp.Body = .ok body)
    (hdec : env.UnmarshalEvents body = .ok R) :
    (GetEvents env ctx c).err = none ∧
      (GetEvents env ctx c).val.len = R.Events.len ∧
      (GetEvents env ctx c).val.toList
        = R.Events.toList.map (fun ev => (⟨ev.Title, ev.StartDate, ev.EndDate⟩ : Event τ)) ∧
      (∀ (i : Nat) (ev : event τ), R.Events.toList[i]? = some ev →
        (GetEvents env ctx c).val.toList[i]? = some ⟨ev.Title, ev.StartDate, ev.EndDate⟩) := by
  obtain ⟨hv, he⟩ := GetEvents_read env ctx c resp body hsub hreq hdo hbody
  rw [hdec] at hv he
  have hl : (GetEvents env ctx c).val.toList
      = R.Events.toList.map (fun ev => (⟨ev.Title, ev.StartDate, ev.EndDate⟩ : Event τ)) := by
    rw [hv, foldl_append_toList (fun ev : event τ =>
      (⟨ev.Title, ev.StartDate, ev.EndDate⟩ : Event τ))]
    simp [Slice.toList]
  refine ⟨he, ?_, hl, ?_⟩
  · simp [Slice.len, hl]
  · intro i ev hi
    rw [hl, List.getElem?_map, hi]
    rfl

/-- C2, concrete run: the one-record reply of the spec scenario gives the one event
`Standup` with both times as decoded. -/
theorem GetEvents_projects_records_witness :
    (GetEvents (service 200 (.ok ⟨200, .ok standupBody⟩) (.ok ⟨201, .ok ""⟩)) () roomB).val.toList
      = [⟨"Standup", "2024-01-01T09:00:00Z", "2024-01-01T09:15:00Z"⟩] :=
  (GetEvents_projects_records (service 200 (.ok ⟨200, .ok standupBody⟩) (.ok ⟨201, .ok ""⟩)) ()
    roomB ⟨200, .ok standupBody⟩ standupBody
    ⟨.mk [record "Standup" "2024-01-01T09:00:00Z" "2024-01-01T09:15:00Z"], 1⟩
    rfl rfl rfl rfl rfl).2.2.1

/-- C3, the run of the spec scenario: resolution succeeds and the events endpoint answers
403 with body `forbidden`.  `GetEvents` hands the body to the decoder and returns the
decoder failure, wrapped; the status 403 appears nowhere in the error.  And when the
endpoint answers 500 with a body that does decode, `GetEvents` returns the decoded events
and no error. -/
theorem GetEvents_ignores_status_code :
    ((GetEvents (service 200 (.ok ⟨403, .ok "forbidden"⟩) (.ok ⟨201, .ok ""⟩)) () roomB).err
        = some (GoError.wrap "error unmarshalling json event data: invalid character in literal false"
            (GoError.leaf "invalid character in literal false")) ∧
      Call.Unmarshal "forbidden"
        ∈ (GetEvents (service 200 (.ok ⟨403, .ok "forbidden"⟩) (.ok ⟨201, .ok ""⟩)) () roomB).calls) ∧
    ((GetEvents (service 200 (.ok ⟨500, .ok standupBody⟩) (.ok ⟨201, .ok ""⟩)) () roomB).err = none ∧
      (GetEvents (service 200 (.ok ⟨500, .ok standupBody⟩) (.ok ⟨201, .ok ""⟩)) () roomB).val
        = Slice.mk [⟨"Standup", "2024-01-01T09:00:00Z", "2024-01-01T09:15:00Z"⟩]) := by
  refine ⟨⟨rfl, by decide⟩, rfl, rfl⟩

/-- C4, as stated, fails: on a reply that decodes to zero records the returned slice is
the nil slice. -/
theorem GetEvents_no_records_returns_nil :
    decodeEvents noEventsBody = .ok ⟨.mk [], 1⟩ ∧
      (GetEvents (service 200 (.ok ⟨200, .ok noEventsBody⟩) (.ok ⟨201, .ok ""⟩)) () roomB).err = none ∧
      (GetEvents (service 200 (.ok ⟨200, .ok noEventsBody⟩) (.ok ⟨201, .ok ""⟩)) () roomB).val.isNil
        = true := by
  refine ⟨rfl, rfl, rfl⟩

/-- C4, amended: when the decoded response has zero records, `GetEvents` returns no error
and a zero-length result, which is the nil slice. -/
theorem GetEvents_no_records (env : Env κ τ) (ctx : κ) (c : Calendar) (resp : Response)
    (body : String) (R : eventResponse τ)
    (hsub : (GetSubcalendarID env ctx c).err = none)
    (hreq : env.NewRequestWithContext ctx "GET" (eventsURL c) none = none)
    (hdo : env.Do ctx (eventsRequest env c (GetSubcalendarID env ctx c).val) = .ok resp)
    (hbody : resp.Body = .ok body)
    (hdec : env.UnmarshalEvents body = .ok R)
    (hzero : R.Events.len = 0) :
    (GetEvents env ctx c).err = none ∧ (GetEvents env ctx c).val.len = 0 ∧
      (GetEvents env ctx c).val = Slice.nil := by
  obtain ⟨hv, he⟩ := GetEvents_read env ctx c resp body hsub hreq hdo hbody
  rw [hdec] at hv he
  have hnil : R.Events.toList = [] := List.length_eq_zero.mp hzero
  have hval : (GetEvents env ctx c).val = Slice.nil := by
    rw [hv]
    simp [hnil]
  refine ⟨he, ?_, hval⟩
  rw [hval]
  rfl

/-- C4 amended, concrete run: the reply with an empty `events` array. -/
theorem GetEvents_no_records_witness :
    (GetEvents (service 200 (.ok ⟨200, .ok noEventsBody⟩) (.ok ⟨201, .ok ""⟩)) () roomB).val
      = Slice.nil :=
  (GetEvents_no_records (service 200 (.ok ⟨200, .ok noEventsBody⟩) (.ok ⟨201, .ok ""⟩)) () roomB
    ⟨200, .ok noEventsBody⟩ noEventsBody ⟨.mk [], 1⟩ rfl rfl rfl rfl rfl rfl).2.2

/-- C10: a body the decoder rejects with cause `cause` makes `GetEvents` (whatever the
status of the events reply) return the nil slice, and `GetSubcalendarID` (on a 2xx listing
reply) return id 0; each returns an error whose text is the decode description followed by
the text of `cause`, and from which `cause` can be unwrapped. -/
theorem decode_failure_no_partial_result (env : Env κ τ) (ctx : κ) (c : Calendar)
    (resp : Response) (body : String) (cause : GoError) :
    ((GetSubcalendarID env ctx c).err = none →
      env.NewRequestWithContext ctx "GET" (eventsURL c) none = none →
      env.Do ctx (eventsRequest env c (GetSubcalendarID env ctx c).val) = .ok resp →
      resp.Body = .ok body →
      env.UnmarshalEvents body = .error cause →
      (GetEvents env ctx c).val = Slice.nil ∧
      (GetEvents env ctx c).val.len = 0 ∧
      (∃ e, (GetEvents env ctx c).err = some e ∧
        e.Error = "error unmarshalling json event data: " ++ cause.Error ∧
        e.Unwrap = some cause)) ∧
    (env.NewRequestWithContext ctx "GET" (subcalendarsURL c) none = none →
      env.Do ctx (subcalendarsRequest c) = .ok resp →
      resp.Body = .ok body →
      (200 ≤ resp.StatusCode ∧ resp.StatusCode ≤ 299) →
      env.UnmarshalSubcalendars body = .error cause →
      (GetSubcalendarID env ctx c).val = 0 ∧
      (∃ e, (GetSubcalendarID env ctx c).err = some e ∧
        e.Error = "error unmarshalling json: " ++ cause.Error ∧
        e.Unwrap = some cause)) := by
  constructor
  · intro hsub hreq hdo hbody hdec
    obtain ⟨hv, he⟩ := GetEvents_read env ctx c resp body hsub hreq hdo hbody
    rw [hdec] at hv he
    refine ⟨hv, ?_, _, he, rfl, rfl⟩
    rw [hv]
    rfl
  · intro hreq hdo hbody h2xx hdec
    have hs : resp.StatusCode.tdiv 100 = 2 := (tdiv_hundred_eq_two _).2 h2xx
    simp only [GetSubcalendarID, hreq, hdo, hbody, hs, hdec]
    exact ⟨rfl, _, rfl, rfl, rfl⟩

/-- C10, concrete runs: the events reply `forbidden` and the listing reply `forbidden`,
both rejected by the decoders. -/
theorem decode_failure_no_partial_result_witness :
    (GetEvents (service 200 (.ok ⟨200, .ok "forbidden"⟩) (.ok ⟨201, .ok ""⟩)) () roomB).val
        = Slice.nil ∧
      (GetSubcalendarID (scripted (fun _ => none) (.ok ⟨200, .ok "forbidden"⟩)
        (.ok ⟨200, .ok noEventsBody⟩) (.ok ⟨201, .ok ""⟩) decodeListing decodeEvents encodeDraft)
        () roomB).val = 0 :=
  ⟨((decode_failure_no_partial_result
      (service 200 (.ok ⟨200, .ok "forbidden"⟩) (.ok ⟨201, .ok ""⟩)) () roomB
      ⟨200, .ok "forbidden"⟩ "forbidden" (.leaf "invalid character in literal false")).1
      rfl rfl rfl rfl rfl).1,
    ((decode_failure_no_partial_result
      (scripted (fun _ => none) (.ok ⟨200, .ok "forbidden"⟩)
        (.ok ⟨200, .ok noEventsBody⟩) (.ok ⟨201, .ok ""⟩) decodeListing decodeEvents encodeDraft)
      () roomB ⟨200, .ok "forbidden"⟩ "forbidden" (.leaf "invalid character in literal false")).2
      rfl rfl rfl (by decide) rfl).1⟩

/-- C5: when resolution returned the id `n`, `CreateEvent` encodes a draft, and every
draft it encodes has `subcalendar_id = n` and the title of the event, with `all_day` false
and `rrule`, `who`, `location` and `notes` empty. -/
theorem CreateEvent_draft_fields (env : Env κ τ) (ctx : κ) (c : Calendar) (e : Event String)
    (hsub : (GetSubcalendarID env ctx c).err = none) :
    (∃ d, Call.Marshal d ∈ (CreateEvent env ctx c e).calls) ∧
      (∀ d, Call.Marshal d ∈ (CreateEvent env ctx c e).calls →
        d.SubCalendarID = (GetSubcalendarID env ctx c).val ∧ d.Title = e.Title ∧
        d.AllDay = false ∧ d.RecurRule = "" ∧ d.Who = "" ∧ d.Location = "" ∧ d.Notes = "") := by
  constructor
  · refine ⟨teamUpEvent (GetSubcalendarID env ctx c).val e, ?_⟩
    unfold CreateEvent
    simp only [hsub]
    split
    · simp
    · split
      · simp
      · split
        · simp
        · split
          · split <;> simp
          · simp
  · intro d hd
    rcases CreateEvent_calls env ctx c e _ hd with h | h | ⟨b, h⟩ | ⟨b, h⟩ | h
    · rcases GetSubcalendarID_calls env ctx c _ h with h1 | h1 | h1 | ⟨b, h1⟩ <;> cases h1
    · cases h
      exact ⟨rfl, rfl, rfl, rfl, rfl, rfl, rfl⟩
    · cases h
    · cases h
    · cases h

/-- C5, concrete run: room `RoomB` resolves to 9 and the event titled `Review` is sent;
the draft found among the library calls has id 9, that title, and the other fields empty. -/
theorem CreateEvent_draft_fields_witness :
    Call.Marshal ⟨9, "2024-01-01T09:00:00Z", "2024-01-01T09:15:00Z", false, "", "Review", "", "", ""⟩
        ∈ (CreateEvent (service 200 (.ok ⟨200, .ok noEventsBody⟩) (.ok ⟨201, .ok ""⟩)) () roomB
            ⟨"Review", "2024-01-01T09:00:00Z", "2024-01-01T09:15:00Z"⟩).calls ∧
      (9 : Int) = (GetSubcalendarID (service 200 (.ok ⟨200, .ok noEventsBody⟩)
        (.ok ⟨201, .ok ""⟩)) () roomB).val :=
  ⟨by decide,
    ((CreateEvent_draft_fields (service 200 (.ok ⟨200, .ok noEventsBody⟩) (.ok ⟨201, .ok ""⟩)) ()
      roomB ⟨"Review", "2024-01-01T09:00:00Z", "2024-01-01T09:15:00Z"⟩ rfl).2
      ⟨9, "2024-01-01T09:00:00Z", "2024-01-01T09:15:00Z", false, "", "Review", "", "", ""⟩
      (by decide)).1⟩

/-- C8: when resolution fails with the error `cause`, `GetEvents` returns the nil slice
and `CreateEvent` encodes and submits nothing; each returns the one error whose text is
`unable to get subcalendar id: ` followed by the text of `cause`; and the library calls of
each are those of the resolution alone, none of which constructs or sends a request for
the events URL. -/
theorem resolution_failure_stops_the_call (env : Env κ τ) (ctx : κ) (c : Calendar)
    (e : Event String) (cause : GoError)
    (hsub : (GetSubcalendarID env ctx c).err = some cause) :
    ((GetEvents env ctx c).val = Slice.nil ∧
      (GetEvents env ctx c).err
        = some (GoError.leaf ("unable to get subcalendar id: " ++ cause.Error)) ∧
      (GetEvents env ctx c).calls = (GetSubcalendarID env ctx c).calls) ∧
    ((CreateEvent env ctx c e).err
        = some (GoError.leaf ("unable to get subcalendar id: " ++ cause.Error)) ∧
      (CreateEvent env ctx c e).calls = (GetSubcalendarID env ctx c).calls) ∧
    (∀ call ∈ (GetSubcalendarID env ctx c).calls,
      (∀ method body, call ≠ .NewRequest method (eventsURL c) body) ∧
      (∀ req, call = .Do req → req.Method = "GET" ∧ req.URL ≠ eventsURL c) ∧
      (∀ d, call ≠ .Marshal d)) := by
  refine ⟨?_, ?_, ?_⟩
  · simp [GetEvents, hsub, Errorf_s]
  · simp [CreateEvent, hsub, Errorf_s]
  · intro call hcall
    have hne := subcalendarsURL_ne_eventsURL c
    have htarget := subcalendarsRequest_target c
    rcases GetSubcalendarID_calls env ctx c call hcall with h | h | h | ⟨b, h⟩
    · subst h
      refine ⟨?_, ?_, ?_⟩
      · intro method body hEq
        injection hEq with _ hurl _
        exact hne hurl
      · intro req hEq
        cases hEq
      · intro d hEq
        cases hEq
    · subst h
      refine ⟨?_, ?_, ?_⟩
      · intro method body hEq
        cases hEq
      · intro req hEq
        injection hEq with hreq
        subst hreq
        exact ⟨htarget.1, by rw [htarget.2]; exact hne⟩
      · intro d hEq
        cases hEq
    · subst h
      exact ⟨fun _ _ hEq => (by cases hEq), fun _ hEq => (by cases hEq),
        fun _ hEq => (by cases hEq)⟩
    · subst h
      exact ⟨fun _ _ hEq => (by cases hEq), fun _ hEq => (by cases hEq),
        fun _ hEq => (by cases hEq)⟩

/-- C8, concrete run: the listing endpoint answers 500 with body `down`. -/
theorem resolution_failure_stops_the_call_witness :
    (GetEvents (scripted (fun _ => none) (.ok ⟨500, .ok "down"⟩) (.ok ⟨200, .ok noEventsBody⟩)
        (.ok ⟨201, .ok ""⟩) decodeListing decodeEvents encodeDraft) () roomB).err
      = some (GoError.leaf
          ("unable to get subcalendar id: " ++ "invalid response, status code 500: down")) :=
  (resolution_failure_stops_the_call
    (scripted (fun _ => none) (.ok ⟨500, .ok "down"⟩) (.ok ⟨200, .ok noEventsBody⟩)
      (.ok ⟨201, .ok ""⟩) decodeListing decodeEvents encodeDraft) () roomB
    ⟨"Review", "2024-01-01T09:00:00Z", "2024-01-01T09:15:00Z"⟩
    (.leaf "invalid response, status code 500: down") rfl).1.2.1

/-- C7: for every status code `s` and body `b`, `s/100 != 2` holds exactly when `s` is
outside 200..299.  On a listing reply `(s, b)`, `GetSubcalendarID` returns the error
`invalid response, status code s: b` when `s` is outside 200..299, whatever the decoder
would make of `b`, and returns no error of that form when `s` is inside.  On a POST reply
with status `s`, after a successful resolution, `CreateEvent` returns the error
`invalid response code s: b` when `s` is outside 200..299 and the body reads as `b`; when
`s` is inside it returns no error whatever the body would read as, and its last library
call is the exchange itself, not a read. -/
theorem status_check_reports_remote_failure (env : Env κ τ) (ctx : κ) (c : Calendar)
    (e : Event String) (s : Int) (b : String) :
    (s.tdiv 100 ≠ 2 ↔ ¬ (200 ≤ s ∧ s ≤ 299)) ∧
    (env.NewRequestWithContext ctx "GET" (subcalendarsURL c) none = none →
      env.Do ctx (subcalendarsRequest c) = .ok ⟨s, .ok b⟩ →
      (¬ (200 ≤ s ∧ s ≤ 299) →
        (GetSubcalendarID env ctx c).val = 0 ∧
        (GetSubcalendarID env ctx c).err
          = some (GoError.leaf ("invalid response, status code " ++ Itoa s ++ ": " ++ b))) ∧
      ((200 ≤ s ∧ s ≤ 299) → ∀ (s' : Int) (b' : String),
        (GetSubcalendarID env ctx c).err
          ≠ some (GoError.leaf ("invalid response, status code " ++ Itoa s' ++ ": " ++ b')))) ∧
    (∀ reqBody : String, (GetSubcalendarID env ctx c).err = none →
      env.Marshal (teamUpEvent (GetSubcalendarID env ctx c).val e) = .ok reqBody →
      env.NewRequestWithContext ctx "POST" (eventsURL c) (some reqBody) = none →
      (¬ (200 ≤ s ∧ s ≤ 299) → env.Do ctx (postRequest c reqBody) = .ok ⟨s, .ok b⟩ →
        (CreateEvent env ctx c e).err
          = some (GoError.leaf ("invalid response code " ++ Itoa s ++ ": " ++ b))) ∧
      ((200 ≤ s ∧ s ≤ 299) → ∀ unread : Except GoError String,
        env.Do ctx (postRequest c reqBody) = .ok ⟨s, unread⟩ →
        (CreateEvent env ctx c e).err = none ∧
        (CreateEvent env ctx c e).calls
          = (GetSubcalendarID env ctx c).calls ++
            [.Marshal (teamUpEvent (GetSubcalendarID env ctx c).val e),
              .NewRequest "POST" (eventsURL c) (some reqBody), .Do (postRequest c reqBody)])) := by
  have hiff := tdiv_hundred_eq_two s
  refine ⟨not_congr hiff, ?_, ?_⟩
  · intro hreq hdo
    constructor
    · intro hout
      have hs : s.tdiv 100 ≠ 2 := fun h => hout (hiff.1 h)
      simp [GetSubcalendarID, hreq, hdo, hs, Errorf_s]
    · intro hin s' b'
      have hs : s.tdiv 100 = 2 := hiff.2 hin
      simp only [GetSubcalendarID, hreq, hdo, hs]
      cases env.UnmarshalSubcalendars b with
      | error err => simp [Errorf_w]
      | ok L =>
        cases hscan : scanSubcalendars c.RoomID L.Subcalendars.toList with
        | some id => simp [hscan]
        | none =>
          simp only [hscan, Errorf_s, ne_eq, not_true_eq_false, ite_false, Option.some.injEq,
            GoError.leaf.injEq]
          intro h
          have hd := congrArg String.data h
          simp [String.data_append] at hd
  · intro reqBody hsub hmar hreq
    constructor
    · intro hout hdo
      have hs : s.tdiv 100 ≠ 2 := fun h => hout (hiff.1 h)
      simp [CreateEvent, hsub, hmar, hreq, hdo, hs, Errorf_s]
    · intro hin unread hdo
      have hs : s.tdiv 100 = 2 := hiff.2 hin
      simp [CreateEvent, hsub, hmar, hreq, hdo, hs]

/-- C7, concrete runs: the listing answers 404 with a body holding the room, and the POST
answers 500 with body `oops`. -/
theorem status_check_reports_remote_failure_witness :
    (GetSubcalendarID (service 404 (.ok ⟨200, .ok noEventsBody⟩) (.ok ⟨201, .ok ""⟩)) () roomB).err
        = some (GoError.leaf ("invalid response, status code " ++ Itoa 404 ++ ": " ++ listingBody)) ∧
      (CreateEvent (service 200 (.ok ⟨200, .ok noEventsBody⟩) (.ok ⟨500, .ok "oops"⟩)) () roomB
        ⟨"Review", "2024-01-01T09:00:00Z", "2024-01-01T09:15:00Z"⟩).err
        = some (GoError.leaf ("invalid response code " ++ Itoa 500 ++ ": " ++ "oops")) :=
  ⟨((status_check_reports_remote_failure
      (service 404 (.ok ⟨200, .ok noEventsBody⟩) (.ok ⟨201, .ok ""⟩)) () roomB
      ⟨"Review", "2024-01-01T09:00:00Z", "2024-01-01T09:15:00Z"⟩ 404 listingBody).2.1
      rfl rfl).1 (by decide) |>.2,
    ((status_check_reports_remote_failure
      (service 200 (.ok ⟨200, .ok noEventsBody⟩) (.ok ⟨500, .ok "oops"⟩)) () roomB
      ⟨"Review", "2024-01-01T09:00:00Z", "2024-01-01T09:15:00Z"⟩ 500 "oops").2.2
      _ rfl rfl rfl).1 (by decide) rfl⟩

/-- C9, three runs with the transport error `dial tcp: i/o timeout` as the cause.
When the listing exchange fails, `GetSubcalendarID` returns the cause as it is, with no
description of the operation, and `GetEvents` and `CreateEvent` return an error that holds
only its text: it has no cause to unwrap and is not the cause itself.  When the POST
exchange fails, `CreateEvent` returns the cause as it is.  When the events GET exchange
fails, `GetEvents` does what the other sites miss: a description followed by the text of
the cause, and the cause can be unwrapped. -/
theorem error_wrapping_differs_by_site :
    ((GetSubcalendarID (scripted (fun _ => none) (.error (.leaf "dial tcp: i/o timeout"))
        (.ok ⟨200, .ok noEventsBody⟩) (.ok ⟨201, .ok ""⟩) decodeListing decodeEvents encodeDraft)
        () roomB).err = some (GoError.leaf "dial tcp: i/o timeout") ∧
      (GetEvents (scripted (fun _ => none) (.error (.leaf "dial tcp: i/o timeout"))
        (.ok ⟨200, .ok noEventsBody⟩) (.ok ⟨201, .ok ""⟩) decodeListing decodeEvents encodeDraft)
        () roomB).err
        = some (GoError.leaf "unable to get subcalendar id: dial tcp: i/o timeout") ∧
      (CreateEvent (scripted (fun _ => none) (.error (.leaf "dial tcp: i/o timeout"))
        (.ok ⟨200, .ok noEventsBody⟩) (.ok ⟨201, .ok ""⟩) decodeListing decodeEvents encodeDraft)
        () roomB ⟨"Review", "2024-01-01T09:00:00Z", "2024-01-01T09:15:00Z"⟩).err
        = some (GoError.leaf "unable to get subcalendar id: dial tcp: i/o timeout") ∧
      (GoError.leaf "unable to get subcalendar id: dial tcp: i/o timeout").Unwrap = none ∧
      GoError.leaf "unable to get subcalendar id: dial tcp: i/o timeout"
        ≠ GoError.leaf "dial tcp: i/o timeout") ∧
    ((CreateEvent (service 200 (.ok ⟨200, .ok noEventsBody⟩)
        (.error (.leaf "dial tcp: i/o timeout"))) () roomB
        ⟨"Review", "2024-01-01T09:00:00Z", "2024-01-01T09:15:00Z"⟩).err
        = some (GoError.leaf "dial tcp: i/o timeout")) ∧
    ((GetEvents (service 200 (.error (.leaf "dial tcp: i/o timeout")) (.ok ⟨201, .ok ""⟩))
        () roomB).err
        = some (GoError.wrap "error sending get request: dial tcp: i/o timeout"
            (GoError.leaf "dial tcp: i/o timeout")) ∧
      (GoError.wrap "error sending get request: dial tcp: i/o timeout"
        (GoError.leaf "dial tcp: i/o timeout")).Unwrap
        = some (GoError.leaf "dial tcp: i/o timeout")) := by
  refine ⟨⟨rfl, rfl, rfl, rfl, by decide⟩, rfl, rfl, rfl⟩

end Claims

end Teamup
